import Mathlib

/-!
Verification of the sandbox trading engine and equity-history subsystem of
the FinanceBackend repository (blueprints/sandbox.py).

The Python module is shallowly embedded: each database table is a list of
row structures, each handler is a pure function threading the database
state (and the process-local cache dictionary, split here into a price
cache and an equity-history cache, which occupy disjoint key prefixes of
the single `_CACHE` dict in the source).  Monetary amounts, quantities and
prices are modelled with exact rationals; timestamps with rationals
(seconds); calendar dates with natural-number day ordinals.  External
effects (yfinance fetches, exceptions raised inside `try` blocks) are
passed in as explicit outcome parameters.
-/

namespace Sandbox

/-- Association-list lookup, first match wins (models dict lookup /
`fetchone` on an indexed key). -/
def alookup {α : Type} {β : Type} [BEq α] : List (α × β) → α → Option β
  | [], _ => none
  | (k, v) :: rest, key => if k == key then some v else alookup rest key

/-- Row of the `sandboxes` table. -/
structure SandboxRow where
  id : Nat
  user_id : Nat
  name : String
  balance : Rat
  initial_balance : Rat
  created_at : Rat
deriving DecidableEq, Repr

/-- Row of the `sandbox_portfolio` table (one lot per sandbox × symbol). -/
structure Lot where
  sandbox_id : Nat
  user_id : Nat
  symbol : String
  quantity : Rat
  average_buy_price : Rat
deriving DecidableEq, Repr

/-- Row of the `sandbox_transactions` table.  The `executed_at` column is
omitted: list position models insertion order and no verified claim
depends on timestamps. -/
structure Txn where
  sandbox_id : Nat
  user_id : Nat
  symbol : String
  type : String
  quantity : Rat
  price : Rat
deriving DecidableEq, Repr

/-- Row of the `sandbox_equity_history` table. -/
structure Snapshot where
  sandbox_id : Nat
  user_id : Nat
  total_equity : Rat
  cash_balance : Rat
  holdings_value : Rat
  snapshot_date : Nat
deriving DecidableEq, Repr

/-- Row of the `sandbox_shares` table (consumed by the access check). -/
structure Share where
  sandbox_id : Nat
  shared_with_id : Nat
  permission : String
deriving DecidableEq, Repr

/-- The database state visible to blueprints/sandbox.py. -/
structure DB where
  sandboxes : List SandboxRow
  portfolio : List Lot
  transactions : List Txn
  equity_history : List Snapshot
  shares : List Share
deriving DecidableEq, Repr

/-- A point of the equity curve as returned to the client:
millisecond timestamp and equity value. -/
structure Pt where
  timestamp : Rat
  value : Rat
deriving DecidableEq, Repr

/-- Process-local equity-history cache: sandbox id ↦ (curve, expiry);
models the `eq_hist_{id}` entries of `_CACHE`. -/
def HCache : Type := List (Nat × (List Pt × Rat))

/-- Process-local price cache: symbol ↦ (price, expiry); models the
`price_{sym}` entries of `_CACHE`. -/
def PCache : Type := List (String × (Rat × Rat))

/-- `_check_sandbox_access`: owner gets full access; otherwise the first
matching share row decides; with `required_permission = "edit"` only an
`edit` share passes.  `none` models the `(None, None)` return. -/
def check_sandbox_access (db : DB) (sandbox_id user_id : Nat)
    (required_permission : String) : Option (Nat × String) :=
  match db.sandboxes.find? (fun s => s.id == sandbox_id) with
  | none => none
  | some s =>
    if s.user_id == user_id then some (s.user_id, "owner")
    else
      match db.shares.find? (fun sh =>
          sh.sandbox_id == sandbox_id && sh.shared_with_id == user_id) with
      | none => none
      | some sh =>
        if required_permission == "edit" && sh.permission != "edit" then none
        else some (s.user_id, sh.permission)

/-- Result payload of a successful trade (the JSON body built by
`_execute_buy` / `_execute_sell`). -/
structure TradeOk where
  type : String
  symbol : String
  price : Rat
  quantity : Rat
  total : Rat
  new_balance : Rat
deriving DecidableEq, Repr

/-- The error responses of the trade path. -/
inductive TradeError where
  | notFound
  | invalidParams
  | quoteUnavailable
  | invalidQuantity
  | insufficientFunds (balance total : Rat)
  | insufficientShares (owned requested : Rat)
deriving DecidableEq, Repr

/-- `UPDATE sandboxes SET balance = %s WHERE id = %s AND user_id = %s`. -/
def update_balance (db : DB) (sandbox_id user_id : Nat) (new_balance : Rat) : DB :=
  { db with sandboxes := db.sandboxes.map (fun s =>
      if s.id == sandbox_id && s.user_id == user_id then
        { s with balance := new_balance } else s) }

/-- `SELECT ... FROM sandbox_portfolio WHERE sandbox_id AND symbol AND user_id`. -/
def find_lot (db : DB) (sandbox_id : Nat) (symbol : String) (user_id : Nat) :
    Option Lot :=
  db.portfolio.find? (fun l =>
    l.sandbox_id == sandbox_id && l.symbol == symbol && l.user_id == user_id)

/-- `UPDATE sandbox_portfolio SET quantity, average_buy_price WHERE ...`. -/
def update_lot (db : DB) (sandbox_id : Nat) (symbol : String) (user_id : Nat)
    (new_qty new_avg : Rat) : DB :=
  { db with portfolio := db.portfolio.map (fun l =>
      if l.sandbox_id == sandbox_id && l.symbol == symbol && l.user_id == user_id
      then { l with quantity := new_qty, average_buy_price := new_avg }
      else l) }

/-- `DELETE FROM sandbox_portfolio WHERE sandbox_id AND symbol AND user_id`. -/
def delete_lot (db : DB) (sandbox_id : Nat) (symbol : String) (user_id : Nat) : DB :=
  { db with portfolio := db.portfolio.filter (fun l =>
      !(l.sandbox_id == sandbox_id && l.symbol == symbol && l.user_id == user_id)) }

/-- `_record_transaction`: INSERT into sandbox_transactions. -/
def record_transaction (db : DB) (sandbox_id : Nat) (symbol trade_type : String)
    (quantity price : Rat) (user_id : Nat) : DB :=
  { db with transactions :=
      db.transactions ++ [⟨sandbox_id, user_id, symbol, trade_type, quantity, price⟩] }

/-- Python `round(x, 2)` (tie behaviour modelled as half-up; no verified
claim depends on ties). -/
def round2 (x : Rat) : Rat := ((x * 100 + 1/2).floor : Rat) / 100

/-- `_record_equity_snapshot`: INSERT ... ON CONFLICT (sandbox_id,
snapshot_date) DO UPDATE of the three value columns (`user_id` is not in
the update list, so a conflicting row keeps its original user). -/
def record_equity_snapshot (tbl : List Snapshot) (sandbox_id user_id : Nat)
    (total_equity cash_balance holdings_value : Rat) (snapshot_date : Nat) :
    List Snapshot :=
  if tbl.any (fun s => s.sandbox_id == sandbox_id && s.snapshot_date == snapshot_date)
  then tbl.map (fun s =>
    if s.sandbox_id == sandbox_id && s.snapshot_date == snapshot_date then
      { s with total_equity := total_equity, cash_balance := cash_balance,
               holdings_value := holdings_value }
    else s)
  else tbl ++ [⟨sandbox_id, user_id, total_equity, cash_balance, holdings_value,
               snapshot_date⟩]

/-- `_snapshot_after_trade`: revalue the sandbox's lots with the batch
price map (`prices.get(symbol, 0)`), upsert today's snapshot, and drop the
sandbox's equity-history cache entry.  `prices` is the result of the
`_get_current_prices` call made inside the function, passed in as data. -/
def snapshot_after_trade (db : DB) (hcache : HCache) (sandbox_id user_id : Nat)
    (cash_balance : Rat) (prices : List (String × Rat)) (today : Nat) :
    DB × HCache :=
  let items := db.portfolio.filter (fun l =>
    l.sandbox_id == sandbox_id && l.user_id == user_id)
  let holdings := items.foldr
    (fun l acc => l.quantity * ((alookup prices l.symbol).getD 0) + acc) 0
  let total := cash_balance + holdings
  let tbl := record_equity_snapshot db.equity_history sandbox_id user_id
    (round2 total) (round2 cash_balance) (round2 holdings) today
  ({ db with equity_history := tbl }, hcache.filter (fun e => !(e.1 == sandbox_id)))

/-- `_execute_buy`. -/
def execute_buy (db : DB) (hcache : HCache) (sandbox_id : Nat) (symbol : String)
    (quantity price total_cost current_balance : Rat) (user_id : Nat)
    (snap_prices : List (String × Rat)) (today : Nat) :
    Except TradeError TradeOk × DB × HCache :=
  if current_balance < total_cost then
    (.error (.insufficientFunds current_balance total_cost), db, hcache)
  else
    let new_balance := current_balance - total_cost
    let db1 := update_balance db sandbox_id user_id new_balance
    let db2 :=
      match find_lot db1 sandbox_id symbol user_id with
      | some lot =>
        let old_qty := lot.quantity
        let old_avg := lot.average_buy_price
        let new_qty := old_qty + quantity
        let new_avg := ((old_qty * old_avg) + (quantity * price)) / new_qty
        update_lot db1 sandbox_id symbol user_id new_qty new_avg
      | none =>
        { db1 with portfolio :=
            db1.portfolio ++ [⟨sandbox_id, user_id, symbol, quantity, price⟩] }
    let db3 := record_transaction db2 sandbox_id symbol "BUY" quantity price user_id
    let snap_out :=
      snapshot_after_trade db3 hcache sandbox_id user_id new_balance snap_prices today
    (.ok ⟨"BUY", symbol, price, quantity, total_cost, new_balance⟩,
     snap_out.1, snap_out.2)

/-- `_execute_sell`.  The lot is deleted when the remaining quantity is
≤ 1e-6, otherwise only its quantity is updated. -/
def execute_sell (db : DB) (hcache : HCache) (sandbox_id : Nat) (symbol : String)
    (quantity price total_cost current_balance : Rat) (user_id : Nat)
    (snap_prices : List (String × Rat)) (today : Nat) :
    Except TradeError TradeOk × DB × HCache :=
  let owned_qty := ((find_lot db sandbox_id symbol user_id).map Lot.quantity).getD 0
  if owned_qty < quantity then
    (.error (.insufficientShares owned_qty quantity), db, hcache)
  else
    let new_balance := current_balance + total_cost
    let db1 := update_balance db sandbox_id user_id new_balance
    let new_qty := owned_qty - quantity
    let db2 :=
      if new_qty ≤ 1/1000000 then delete_lot db1 sandbox_id symbol user_id
      else
        { db1 with portfolio := db1.portfolio.map (fun l =>
            if l.sandbox_id == sandbox_id && l.symbol == symbol
               && l.user_id == user_id
            then { l with quantity := new_qty } else l) }
    let db3 := record_transaction db2 sandbox_id symbol "SELL" quantity price user_id
    let snap_out :=
      snapshot_after_trade db3 hcache sandbox_id user_id new_balance snap_prices today
    (.ok ⟨"SELL", symbol, price, quantity, total_cost, new_balance⟩,
     snap_out.1, snap_out.2)

/-- The quantity/amount resolution inline in `trade_stock`:
`if amount > 0 and quantity <= 0: quantity = amount / price`. -/
def resolve_quantity (quantity amount price : Rat) : Rat :=
  if 0 < amount ∧ quantity ≤ 0 then amount / price else quantity

/-- `trade_stock` (the POST /trade handler after authentication).  The
current-price lookup of `_get_current_price` is passed in as
`price?` (`none` if it returned `None`); a fetched price of `0` is falsy
in `if not price` and also rejected. -/
def trade_stock (db : DB) (hcache : HCache) (sandbox_id user_id : Nat)
    (symbol? : Option String) (trade_type : String) (quantity0 amount : Rat)
    (price? : Option Rat) (snap_prices : List (String × Rat)) (today : Nat) :
    Except TradeError TradeOk × DB × HCache :=
  match check_sandbox_access db sandbox_id user_id "edit" with
  | none => (.error .notFound, db, hcache)
  | some (owner_id, _perm) =>
    if symbol?.getD "" == "" || !(trade_type == "BUY" || trade_type == "SELL") then
      (.error .invalidParams, db, hcache)
    else
      match price? with
      | none => (.error .quoteUnavailable, db, hcache)
      | some price =>
        if price == 0 then (.error .quoteUnavailable, db, hcache)
        else
          let quantity := resolve_quantity quantity0 amount price
          if quantity ≤ 0 then (.error .invalidQuantity, db, hcache)
          else
            let total_cost := price * quantity
            match db.sandboxes.find? (fun s =>
                s.id == sandbox_id && s.user_id == owner_id) with
            | none => (.error .notFound, db, hcache)
            | some sandbox =>
              let current_balance := sandbox.balance
              if trade_type == "BUY" then
                execute_buy db hcache sandbox_id (symbol?.getD "") quantity price
                  total_cost current_balance owner_id snap_prices today
              else
                execute_sell db hcache sandbox_id (symbol?.getD "") quantity price
                  total_cost current_balance owner_id snap_prices today

/-- `delete_sandbox` (the DELETE handler): owner check, then manual
cascade over `sandbox_transactions` and `sandbox_portfolio`, then the
sandbox row itself.  (`sandbox_equity_history` is not touched.) -/
def delete_sandbox (db : DB) (sandbox_id user_id : Nat) : Except String DB :=
  match db.sandboxes.find? (fun s => s.id == sandbox_id && s.user_id == user_id) with
  | none => .error "Sandbox not found"
  | some _ =>
    let db1 := { db with transactions := db.transactions.filter (fun t =>
      !(t.sandbox_id == sandbox_id && t.user_id == user_id)) }
    let db2 := { db1 with portfolio := db1.portfolio.filter (fun l =>
      !(l.sandbox_id == sandbox_id && l.user_id == user_id)) }
    let db3 := { db2 with sandboxes := db2.sandboxes.filter (fun s =>
      !(s.id == sandbox_id && s.user_id == user_id)) }
    .ok db3

/-- `get_transactions` (the GET handler): watch access suffices; rows are
returned newest-first (`ORDER BY executed_at DESC`, modelled by reversing
insertion order). -/
def get_transactions (db : DB) (sandbox_id user_id : Nat) :
    Except String (List Txn) :=
  match check_sandbox_access db sandbox_id user_id "watch" with
  | none => .error "Sandbox not found"
  | some (owner_id, _perm) =>
    .ok ((db.transactions.filter (fun t =>
      t.sandbox_id == sandbox_id && t.user_id == owner_id)).reverse)

/-- Outcome of one per-symbol `fast_info.last_price` access inside the
batch loop of `_get_current_prices`: `.raise` models the per-symbol
`except` branch, `.price p` a returned value (Python treats `0` as falsy
in `if p:`). -/
inductive FetchOut where
  | raise
  | price (p : Rat)
deriving DecidableEq, Repr

/-- The per-symbol cache probe at the top of `_get_current_prices`: a
cached price younger than its expiry is served, anything else makes the
symbol "missing". -/
def cache_hit (pcache : PCache) (now : Rat) (sym : String) : Option Rat :=
  match alookup pcache sym with
  | some (val, expiry) => if now < expiry then some val else none
  | none => none

/-- One iteration of the missing-symbol fetch loop of
`_get_current_prices`: an exception stores and caches `0.0`; a falsy
(zero) price leaves the symbol absent; a truthy price is stored and
cached for 300 s. -/
def fetch_step (now : Rat) (outcomes : String → FetchOut)
    (acc : List (String × Rat) × PCache) (sym : String) :
    List (String × Rat) × PCache :=
  match outcomes sym with
  | .raise => (acc.1 ++ [(sym, 0)], (sym, (0, now + 300)) :: acc.2)
  | .price p =>
    if p == 0 then acc
    else (acc.1 ++ [(sym, p)], (sym, (p, now + 300)) :: acc.2)

/-- `_get_current_prices`: serve fresh cache entries, then fetch the
missing symbols.  `batchRaise` models the outer `except` (e.g. the
`yf.Tickers` construction failing): every missing symbol is then filled
with `0.0` without caching.  Returns the price map and the updated
cache. -/
def get_current_prices (pcache : PCache) (now : Rat) (symbols : List String)
    (outcomes : String → FetchOut) (batchRaise : Bool) :
    List (String × Rat) × PCache :=
  let split := symbols.foldl (fun (acc : List (String × Rat) × List String) sym =>
    match cache_hit pcache now sym with
    | some val => (acc.1 ++ [(sym, val)], acc.2)
    | none => (acc.1, acc.2 ++ [sym])) ([], [])
  let result := split.1
  let missing := split.2
  if missing.isEmpty then (result, pcache)
  else if batchRaise then
    (result ++ missing.map (fun sym => (sym, 0)), pcache)
  else
    missing.foldl (fetch_step now outcomes) (result, pcache)

/-- One `_record_equity_snapshot` call issued from inside the seeding
loop: (total, cash, holdings, date), already rounded by the caller. -/
structure SeedWrite where
  total : Rat
  cash : Rat
  holdings : Rat
  date : Nat
deriving DecidableEq, Repr

/-- `_seed_equity_history`.  The body of its `try` block walks pandas
date ranges and yfinance data; it is modelled abstractly by the snapshot
upserts it performed (`writes`) and its outcome (`body`): `.ok h` when the
replay completed with curve `h`, `.error msg` when any step raised.  The
`except` branch returns the two-point fallback curve plus the error
message; the upserts already performed stay in the table. -/
def seed_equity_history (tbl : List Snapshot) (sandbox_id user_id : Nat)
    (initial_balance created_at now : Rat) (writes : List SeedWrite)
    (body : Except String (List Pt)) :
    (List Pt × Option String) × List Snapshot :=
  let tbl1 := writes.foldl (fun t w =>
    record_equity_snapshot t sandbox_id user_id w.total w.cash w.holdings w.date) tbl
  match body with
  | .ok h => ((h, none), tbl1)
  | .error e =>
    (([⟨created_at * 1000, initial_balance⟩, ⟨now * 1000, initial_balance⟩],
      some ("Failed to seed equity history: " ++ e)), tbl1)

/-- Insertion sort of snapshot rows by date (`ORDER BY snapshot_date ASC`). -/
def insert_by_date (r : Snapshot) : List Snapshot → List Snapshot
  | [] => [r]
  | s :: rest =>
    if r.snapshot_date ≤ s.snapshot_date then r :: s :: rest
    else s :: insert_by_date r rest

/-- Sort snapshot rows ascending by date. -/
def sort_by_date : List Snapshot → List Snapshot
  | [] => []
  | s :: rest => insert_by_date s (sort_by_date rest)

/-- `datetime.combine(date, time()).timestamp() * 1000` for a day
ordinal: a fixed monotone embedding of dates into millisecond stamps. -/
def date_to_ms (d : Nat) : Rat := (d : Rat) * 86400000

/-- Cache-miss path of `_get_equity_history`: read the sandbox's snapshot
rows; with fewer than two rows, seed (the seeding outcome is the
`writes`/`body` pair) and cache a non-empty result for 900 s; otherwise
build the curve from the rows and cache it.  Returns (curve, error), the
updated cache and the updated snapshot table. -/
def get_equity_history_miss (hcache : HCache) (tbl : List Snapshot) (now : Rat)
    (sandbox_id user_id : Nat) (initial_balance created_at : Rat)
    (writes : List SeedWrite) (body : Except String (List Pt)) :
    (List Pt × Option String) × HCache × List Snapshot :=
  let rows := sort_by_date (tbl.filter (fun s => s.sandbox_id == sandbox_id))
  if rows.length < 2 then
    let seeded := seed_equity_history tbl sandbox_id user_id
      initial_balance created_at now writes body
    let hcache1 :=
      if seeded.1.1.isEmpty then hcache
      else (sandbox_id, (seeded.1.1, now + 900)) :: hcache
    (seeded.1, hcache1, seeded.2)
  else
    let history := rows.map (fun r => Pt.mk (date_to_ms r.snapshot_date) r.total_equity)
    ((history, none), (sandbox_id, (history, now + 900)) :: hcache, tbl)

/-- `_get_equity_history` (cache layer): serve an unexpired cache entry
with no error; otherwise fall through to the database / seeding path. -/
def get_equity_history (hcache : HCache) (tbl : List Snapshot) (now : Rat)
    (sandbox_id user_id : Nat) (initial_balance created_at : Rat)
    (writes : List SeedWrite) (body : Except String (List Pt)) :
    (List Pt × Option String) × HCache × List Snapshot :=
  match alookup hcache sandbox_id with
  | some (val, expiry) =>
    if now < expiry then ((val, none), hcache, tbl)
    else get_equity_history_miss hcache tbl now sandbox_id user_id
      initial_balance created_at writes body
  | none => get_equity_history_miss hcache tbl now sandbox_id user_id
      initial_balance created_at writes body

/-- One lot as rendered in the portfolio response. -/
structure HoldingView where
  symbol : String
  quantity : Rat
  average_buy_price : Rat
  current_price : Rat
  current_value : Rat
  gain_loss : Rat
  gain_loss_percent : Rat
deriving DecidableEq, Repr

/-- The portfolio response body. -/
structure PortfolioResp where
  portfolio : List HoldingView
  cash_balance : Rat
  initial_balance : Rat
  total_equity : Rat
  equity_history : List Pt
  permission : String
  history_error : Option String
deriving DecidableEq, Repr

/-- `get_portfolio` (the GET handler): watch access; value the lots with
the batch price map (`prices.get(symbol, avg_price)`); record today's
snapshot; then compute the equity curve.  External effects are passed as
data: `outcomes`/`batchRaise` drive the batch price fetch, and
`seed_writes`/`seed_body` the seeding outcome if it runs.  Returns the
response (or the not-found error) plus the updated database and caches. -/
def get_portfolio (db : DB) (pcache : PCache) (hcache : HCache)
    (sandbox_id user_id : Nat) (now : Rat) (today : Nat)
    (outcomes : String → FetchOut) (batchRaise : Bool)
    (seed_writes : List SeedWrite) (seed_body : Except String (List Pt)) :
    Except String PortfolioResp × DB × PCache × HCache :=
  match check_sandbox_access db sandbox_id user_id "watch" with
  | none => (.error "Sandbox not found", db, pcache, hcache)
  | some (owner_id, permission) =>
    let portfolio_items := db.portfolio.filter (fun l =>
      l.sandbox_id == sandbox_id && l.user_id == owner_id)
    match db.sandboxes.find? (fun s =>
        s.id == sandbox_id && s.user_id == owner_id) with
    | none => (.error "Sandbox not found", db, pcache, hcache)
    | some sandbox =>
      let cash_balance := sandbox.balance
      let initial_balance :=
        if sandbox.initial_balance == 0 then cash_balance
        else sandbox.initial_balance
      let symbols := portfolio_items.map Lot.symbol
      let fetched := get_current_prices pcache now symbols outcomes batchRaise
      let prices := fetched.1
      let results := portfolio_items.map (fun item =>
        let current_price := (alookup prices item.symbol).getD item.average_buy_price
        let current_val := current_price * item.quantity
        HoldingView.mk item.symbol item.quantity item.average_buy_price
          current_price current_val
          ((current_price - item.average_buy_price) * item.quantity)
          (if 0 < item.average_buy_price then
            (current_price - item.average_buy_price) / item.average_buy_price * 100
          else 0))
      let holdings_value := results.foldr (fun r acc => r.current_value + acc) 0
      let total_equity := cash_balance + holdings_value
      let tbl := record_equity_snapshot db.equity_history sandbox_id owner_id
        total_equity cash_balance holdings_value today
      let hist_out :=
        get_equity_history hcache tbl now sandbox_id owner_id initial_balance
          sandbox.created_at seed_writes seed_body
      (.ok ⟨results, cash_balance, initial_balance, total_equity, hist_out.1.1,
            permission, hist_out.1.2⟩,
       { db with equity_history := hist_out.2.2 }, fetched.2, hist_out.2.1)

/-- One trade request as received by the POST /trade handler, with the
external price data it consumed. -/
structure TradeReq where
  sandbox_id : Nat
  user_id : Nat
  symbol? : Option String
  trade_type : String
  quantity : Rat
  amount : Rat
  price? : Option Rat
  snap_prices : List (String × Rat)
  today : Nat
deriving Repr

/-- Apply one trade request to the database and history cache. -/
def trade_step (st : DB × HCache) (r : TradeReq) : DB × HCache :=
  let out := trade_stock st.1 st.2 r.sandbox_id r.user_id r.symbol? r.trade_type
    r.quantity r.amount r.price? r.snap_prices r.today
  (out.2.1, out.2.2)

/-- Apply a sequence of trade requests in order. -/
def run_trades (st : DB × HCache) (reqs : List TradeReq) : DB × HCache :=
  reqs.foldl trade_step st

/-- Cash balance of the sandbox with the given id (0 if absent). -/
def balance_of (db : DB) (sid : Nat) : Rat :=
  ((db.sandboxes.find? (fun s => s.id == sid)).map SandboxRow.balance).getD 0

/-- Transaction-log rows of one sandbox, in insertion order. -/
def txns_for (db : DB) (sid : Nat) : List Txn :=
  db.transactions.filter (fun t => t.sandbox_id == sid)

/-- Total SELL proceeds (quantity × price per SELL row). -/
def sum_sell (l : List Txn) : Rat :=
  (l.filter (fun t => t.type == "SELL")).foldr (fun t acc => t.quantity * t.price + acc) 0

/-- Total BUY costs (quantity × price per BUY row). -/
def sum_buy (l : List Txn) : Rat :=
  (l.filter (fun t => t.type == "BUY")).foldr (fun t acc => t.quantity * t.price + acc) 0

/-- Transaction rows appended after a starting state (the executed trades
of a run). -/
def new_txns (db db' : DB) (sid : Nat) : List Txn :=
  (txns_for db' sid).drop (txns_for db sid).length

/-- The `sandboxes` table has at most one row per id (its primary key). -/
def UniqueSandboxIds (db : DB) : Prop :=
  db.sandboxes.Pairwise (fun a b => a.id ≠ b.id)

instance (db : DB) : Decidable (UniqueSandboxIds db) :=
  inferInstanceAs (Decidable (db.sandboxes.Pairwise _))

/-- Fixture: one sandbox owned by user 7 with an existing X lot. -/
def db2w : DB :=
  { sandboxes := [⟨1, 7, "paper", 1000, 1000, 0⟩],
    portfolio := [⟨1, 7, "X", 10, 100⟩],
    transactions := [], equity_history := [], shares := [] }

/-- Fixture: one sandbox owned by user 7, balance 100, no lots. -/
def db3w : DB :=
  { sandboxes := [⟨1, 7, "paper", 100, 100, 0⟩],
    portfolio := [], transactions := [], equity_history := [], shares := [] }

/-- Fixture: sandbox owned by user 7, shared with user 9 as watch-only. -/
def db4w : DB :=
  { sandboxes := [⟨1, 7, "paper", 100, 100, 0⟩],
    portfolio := [], transactions := [], equity_history := [],
    shares := [⟨1, 9, "watch"⟩] }

/-- Fixture: sandbox 3 (created at t = 10, initial balance 1000) with no
equity snapshots. -/
def db5w : DB :=
  { sandboxes := [⟨3, 7, "paper", 500, 1000, 10⟩],
    portfolio := [], transactions := [], equity_history := [], shares := [] }

/-- Fixture: sandbox 1 with a snapshot row that `delete_sandbox` leaves
behind. -/
def db7w : DB :=
  { sandboxes := [⟨1, 7, "paper", 100, 100, 0⟩],
    portfolio := [⟨1, 7, "X", 2, 10⟩],
    transactions := [⟨1, 7, "X", "BUY", 2, 10⟩],
    equity_history := [⟨1, 7, 100, 80, 20, 40⟩], shares := [] }

/-- Fixture: sandbox 2 holding one AAPL lot bought at average cost 50. -/
def db8w : DB :=
  { sandboxes := [⟨2, 7, "paper", 1000, 1000, 0⟩],
    portfolio := [⟨2, 7, "AAPL", 1, 50⟩],
    transactions := [], equity_history := [], shares := [] }

/-- Fixture: a batch fetch in which symbol A raises and symbol B returns
a falsy price. -/
def outcomes8w : String → FetchOut :=
  fun s => if s == "A" then .raise else .price 0

/-- Fixture: fresh sandbox 1 with 1000 cash for the conservation run. -/
def db1w : DB :=
  { sandboxes := [⟨1, 7, "paper", 1000, 1000, 0⟩],
    portfolio := [], transactions := [], equity_history := [], shares := [] }

/-- Fixture: a BUY, a SELL, and a BUY rejected for insufficient funds. -/
def reqs1w : List TradeReq :=
  [⟨1, 7, some "X", "BUY", 2, 0, some 100, [("X", 100)], 1⟩,
   ⟨1, 7, some "X", "SELL", 1, 0, some 150, [("X", 150)], 2⟩,
   ⟨1, 7, some "X", "BUY", 100, 0, some 100, [("X", 100)], 3⟩]

theorem find?_map_pres {α : Type} (l : List α) (g : α → α) (p : α → Bool)
    (h : ∀ x, p (g x) = p x) : (l.map g).find? p = (l.find? p).map g := by
  induction l with
  | nil => rfl
  | cons a t ih =>
    cases hpa : p a with
    | true =>
      rw [List.map_cons, List.find?_cons_of_pos _ ((h a).trans hpa),
        List.find?_cons_of_pos _ hpa, Option.map_some']
    | false =>
      rw [List.map_cons, List.find?_cons_of_neg _ (by simp [h a, hpa]),
        List.find?_cons_of_neg _ (by simp [hpa]), ih]

theorem filter_map_upd {α : Type} (l : List α) (p : α → Bool) (f : α → α)
    (h : ∀ x, p (f x) = p x) :
    (l.map (fun x => if p x then f x else x)).filter p = (l.filter p).map f := by
  induction l with
  | nil => rfl
  | cons a t ih =>
    cases hpa : p a with
    | true => simp [List.filter_cons, hpa, h, ih]
    | false => simp [List.filter_cons, hpa, ih]

/-- C9: when a trade request supplies both a positive quantity and a
positive cash amount, the supplied quantity is used and the amount is
ignored; the amount/price conversion applies only when the supplied
quantity is not positive. -/
theorem trade_quantity_beats_amount (db : DB) (hcache : HCache)
    (sid uid : Nat) (symbol? : Option String) (tt : String)
    (quantity amount : Rat) (price? : Option Rat)
    (snap : List (String × Rat)) (today : Nat)
    (hq : 0 < quantity) (ha : 0 < amount) :
    trade_stock db hcache sid uid symbol? tt quantity amount price? snap today
      = trade_stock db hcache sid uid symbol? tt quantity 0 price? snap today
    ∧ (∀ p : Rat, resolve_quantity quantity amount p = quantity)
    ∧ (∀ q a p : Rat, q ≤ 0 → 0 < a → resolve_quantity q a p = a / p) := by
  have hno : ¬ (0 < amount ∧ quantity ≤ 0) := fun hc => absurd hq (not_lt.mpr hc.2)
  have hres : ∀ p : Rat, resolve_quantity quantity amount p
      = resolve_quantity quantity 0 p := by
    intro p
    rw [resolve_quantity, resolve_quantity, if_neg hno, if_neg (by simp)]
  refine ⟨by simp only [trade_stock, hres], ?_, ?_⟩
  · intro p; rw [resolve_quantity, if_neg hno]
  · intro q a p h1 h2; rw [resolve_quantity, if_pos ⟨h2, h1⟩]

/-- C7 counterexample: deleting sandbox 1 (owned by caller 7) succeeds
and removes its transactions, lot and sandbox row, but its equity
snapshot row — keyed to sandbox id 1 — survives the delete. -/
theorem delete_sandbox_keeps_snapshots :
    (delete_sandbox db7w 1 7).toOption.map
        (fun d => d.equity_history.filter (fun s => s.sandbox_id == 1))
      = some [⟨1, 7, 100, 80, 20, 40⟩]
    ∧ some ([⟨1, 7, 100, 80, 20, 40⟩] : List Snapshot) ≠ some [] := by
  exact ⟨rfl, by decide⟩

/-- C7 (amended): owner deletion removes the sandbox row, all of its
transaction-log rows and all of its lots, but leaves the equity-snapshot
table untouched. -/
theorem delete_sandbox_cascade (db db' : DB) (sid uid : Nat)
    (h : delete_sandbox db sid uid = .ok db') :
    db'.transactions.filter (fun t => t.sandbox_id == sid && t.user_id == uid) = []
    ∧ db'.portfolio.filter (fun l => l.sandbox_id == sid && l.user_id == uid) = []
    ∧ db'.sandboxes.filter (fun s => s.id == sid && s.user_id == uid) = []
    ∧ db'.equity_history = db.equity_history := by
  unfold delete_sandbox at h
  cases hf : db.sandboxes.find? (fun s => s.id == sid && s.user_id == uid) with
  | none => rw [hf] at h; exact absurd h (by simp)
  | some s =>
    rw [hf] at h
    cases h
    refine ⟨?_, ?_, ?_, rfl⟩ <;>
      simp [List.filter_filter, Bool.and_comm, Bool.and_not_self]

/-- The three value columns written by the upsert's DO UPDATE branch. -/
def snap_upd (t c h : Rat) (s : Snapshot) : Snapshot :=
  { s with total_equity := t, cash_balance := c, holdings_value := h }

theorem record_snapshot_filter (tbl : List Snapshot) (sid uid : Nat)
    (t c h : Rat) (d : Nat) :
    (record_equity_snapshot tbl sid uid t c h d).filter
        (fun s => s.sandbox_id == sid && s.snapshot_date == d)
      = if tbl.any (fun s => s.sandbox_id == sid && s.snapshot_date == d) then
          (tbl.filter (fun s => s.sandbox_id == sid && s.snapshot_date == d)).map
            (snap_upd t c h)
        else tbl.filter (fun s => s.sandbox_id == sid && s.snapshot_date == d)
          ++ [⟨sid, uid, t, c, h, d⟩] := by
  unfold record_equity_snapshot
  split
  · exact filter_map_upd tbl _ (snap_upd t c h) (fun x => rfl)
  · rw [List.filter_append]
    simp

/-- C6: upserting a snapshot twice for the same (sandbox, date), on a
table satisfying the unique-key constraint, leaves exactly one row for
that key and it carries the second call's total, cash and holdings. -/
theorem upsert_snapshot_idempotent (tbl : List Snapshot) (sid : Nat)
    (u1 u2 : Nat) (t1 c1 h1 t2 c2 h2 : Rat) (d : Nat)
    (hU : (tbl.filter (fun s => s.sandbox_id == sid && s.snapshot_date == d)).length ≤ 1) :
    ∃ s : Snapshot,
      (record_equity_snapshot (record_equity_snapshot tbl sid u1 t1 c1 h1 d)
          sid u2 t2 c2 h2 d).filter
          (fun s => s.sandbox_id == sid && s.snapshot_date == d) = [s]
      ∧ s.total_equity = t2 ∧ s.cash_balance = c2 ∧ s.holdings_value = h2 := by
  cases hany : tbl.any (fun s => s.sandbox_id == sid && s.snapshot_date == d) with
  | false =>
    have hnil : tbl.filter (fun s => s.sandbox_id == sid && s.snapshot_date == d) = [] := by
      rw [List.filter_eq_nil]
      intro a ha
      have := List.any_eq_false.mp hany a ha
      simp_all
    have h1eq : record_equity_snapshot tbl sid u1 t1 c1 h1 d
        = tbl ++ [⟨sid, u1, t1, c1, h1, d⟩] := by
      unfold record_equity_snapshot
      rw [if_neg (by simp [hany])]
    have hany2 : (record_equity_snapshot tbl sid u1 t1 c1 h1 d).any
        (fun s => s.sandbox_id == sid && s.snapshot_date == d) = true := by
      rw [h1eq, List.any_eq_true]
      exact ⟨⟨sid, u1, t1, c1, h1, d⟩, by simp, by simp⟩
    refine ⟨snap_upd t2 c2 h2 ⟨sid, u1, t1, c1, h1, d⟩, ?_, rfl, rfl, rfl⟩
    rw [record_snapshot_filter, if_pos hany2, h1eq, List.filter_append, hnil]
    simp [snap_upd]
  | true =>
    obtain ⟨x, hx, hPx⟩ := List.any_eq_true.mp hany
    have hmem : x ∈ tbl.filter (fun s => s.sandbox_id == sid && s.snapshot_date == d) :=
      List.mem_filter.mpr ⟨hx, hPx⟩
    have hlen1 : (tbl.filter (fun s => s.sandbox_id == sid && s.snapshot_date == d)).length = 1 := by
      have : 0 < (tbl.filter (fun s => s.sandbox_id == sid && s.snapshot_date == d)).length :=
        List.length_pos.mpr (List.ne_nil_of_mem hmem)
      omega
    obtain ⟨s0, hs0⟩ := List.length_eq_one.mp hlen1
    have hfil1 : (record_equity_snapshot tbl sid u1 t1 c1 h1 d).filter
        (fun s => s.sandbox_id == sid && s.snapshot_date == d) = [snap_upd t1 c1 h1 s0] := by
      rw [record_snapshot_filter, if_pos hany, hs0]
      rfl
    have hany2 : (record_equity_snapshot tbl sid u1 t1 c1 h1 d).any
        (fun s => s.sandbox_id == sid && s.snapshot_date == d) = true := by
      rw [List.any_eq_true]
      have hm : snap_upd t1 c1 h1 s0 ∈ (record_equity_snapshot tbl sid u1 t1 c1 h1 d).filter
          (fun s => s.sandbox_id == sid && s.snapshot_date == d) := by
        rw [hfil1]; exact List.mem_singleton.mpr rfl
      exact ⟨snap_upd t1 c1 h1 s0, (List.mem_filter.mp hm).1, (List.mem_filter.mp hm).2⟩
    refine ⟨snap_upd t2 c2 h2 (snap_upd t1 c1 h1 s0), ?_, rfl, rfl, rfl⟩
    rw [record_snapshot_filter, if_pos hany2, hfil1]
    rfl

/-- C6 witness: two upserts for (sandbox 2, date 5) on an empty table
leave exactly one row holding the second call's values. -/
theorem upsert_snapshot_idempotent_witness :
    ((record_equity_snapshot (record_equity_snapshot [] 2 7 10 20 30 5)
        2 8 11 21 31 5).filter
        (fun s => s.sandbox_id == 2 && s.snapshot_date == 5)).map
        (fun s => (s.total_equity, s.cash_balance, s.holdings_value))
      = [(11, 21, 31)] := by
  obtain ⟨s, hfil, ht, hc, hh⟩ :=
    upsert_snapshot_idempotent [] 2 7 8 10 20 30 11 21 31 5 (by simp)
  rw [hfil, List.map_singleton, ht, hc, hh]


/-- C9 witness: quantity 1 with amount 50 at price 50 trades 1 share, not
50 / 50 more. -/
theorem trade_quantity_beats_amount_witness :
    trade_stock db3w [] 1 7 (some "X") "BUY" 1 50 (some 50) [] 9
      = trade_stock db3w [] 1 7 (some "X") "BUY" 1 0 (some 50) [] 9
    ∧ resolve_quantity 1 50 50 = 1 := by
  have h := trade_quantity_beats_amount db3w [] 1 7 (some "X") "BUY" 1 50
    (some 50) [] 9 (by norm_num) (by norm_num)
  exact ⟨h.1, h.2.1 50⟩

/-- C7 (amended) witness: the concrete deletion removes transactions,
lots and the sandbox row and leaves the snapshot table as it was. -/
theorem delete_sandbox_cascade_witness :
    ({ sandboxes := [], portfolio := [], transactions := [],
       equity_history := [⟨1, 7, 100, 80, 20, 40⟩], shares := [] } : DB).transactions.filter
        (fun t => t.sandbox_id == 1 && t.user_id == 7) = []
    ∧ ({ sandboxes := [], portfolio := [], transactions := [],
         equity_history := [⟨1, 7, 100, 80, 20, 40⟩], shares := [] } : DB).portfolio.filter
        (fun l => l.sandbox_id == 1 && l.user_id == 7) = []
    ∧ ({ sandboxes := [], portfolio := [], transactions := [],
         equity_history := [⟨1, 7, 100, 80, 20, 40⟩], shares := [] } : DB).sandboxes.filter
        (fun s => s.id == 1 && s.user_id == 7) = []
    ∧ ({ sandboxes := [], portfolio := [], transactions := [],
         equity_history := [⟨1, 7, 100, 80, 20, 40⟩], shares := [] } : DB).equity_history
      = db7w.equity_history :=
  delete_sandbox_cascade db7w _ 1 7 rfl

theorem find_lot_update_balance (db : DB) (a b : Nat) (c : Rat)
    (s : Nat) (y : String) (u : Nat) :
    find_lot (update_balance db a b c) s y u = find_lot db s y u := rfl

theorem portfolio_update_balance (db : DB) (a b : Nat) (c : Rat) :
    (update_balance db a b c).portfolio = db.portfolio := rfl

theorem find_lot_record_transaction (db : DB) (a : Nat) (y ty : String)
    (q pr : Rat) (b : Nat) (s : Nat) (y' : String) (u : Nat) :
    find_lot (record_transaction db a y ty q pr b) s y' u = find_lot db s y' u := rfl

theorem find_lot_snapshot_after_trade (db : DB) (hc : HCache) (a b : Nat)
    (cb : Rat) (pr : List (String × Rat)) (td : Nat)
    (s : Nat) (y : String) (u : Nat) :
    find_lot (snapshot_after_trade db hc a b cb pr td).1 s y u = find_lot db s y u := rfl

theorem find?_append_none {α : Type} (l1 l2 : List α) (p : α → Bool)
    (h : l1.find? p = none) : (l1 ++ l2).find? p = l2.find? p := by
  induction l1 with
  | nil => rfl
  | cons a t ih =>
    rw [List.find?_cons] at h
    cases hpa : p a with
    | true => rw [hpa] at h; exact absurd h (by simp)
    | false =>
      rw [hpa] at h
      rw [List.cons_append, List.find?_cons_of_neg _ (by simp [hpa]), ih h]

theorem find_lot_update_lot_self (db : DB) (sid : Nat) (sym : String) (uid : Nat)
    (nq na : Rat) (lot : Lot) (h : find_lot db sid sym uid = some lot) :
    find_lot (update_lot db sid sym uid nq na) sid sym uid
      = some { lot with quantity := nq, average_buy_price := na } := by
  have hpres : ∀ x : Lot,
      ((if x.sandbox_id == sid && x.symbol == sym && x.user_id == uid then
          { x with quantity := nq, average_buy_price := na } else x).sandbox_id == sid
        && (if x.sandbox_id == sid && x.symbol == sym && x.user_id == uid then
          { x with quantity := nq, average_buy_price := na } else x).symbol == sym
        && (if x.sandbox_id == sid && x.symbol == sym && x.user_id == uid then
          { x with quantity := nq, average_buy_price := na } else x).user_id == uid)
      = (x.sandbox_id == sid && x.symbol == sym && x.user_id == uid) := by
    intro x
    cases hx : (x.sandbox_id == sid && x.symbol == sym && x.user_id == uid) with
    | true => simpa using hx
    | false => simpa using hx
  unfold find_lot update_lot
  unfold find_lot at h
  dsimp only
  have hp0 := List.find?_some h
  have hp : (lot.sandbox_id == sid && lot.symbol == sym && lot.user_id == uid) = true := hp0
  rw [find?_map_pres _ _ _ hpres, h, Option.map_some', if_pos hp]

/-- C2: an executed BUY on an existing lot moves its average cost to the
quantity-weighted average and its quantity to the sum; an executed BUY
with no existing lot creates one whose average cost is the execution
price; and a SELL never changes any surviving lot's average cost. -/
theorem trade_average_cost_spec (db : DB) (hcache : HCache) (sid : Nat)
    (sym : String) (q p tc bal : Rat) (uid : Nat)
    (snap : List (String × Rat)) (today : Nat) (hb : ¬ bal < tc) :
    (∀ lot : Lot, find_lot db sid sym uid = some lot →
      find_lot (execute_buy db hcache sid sym q p tc bal uid snap today).2.1 sid sym uid
        = some { lot with quantity := lot.quantity + q, average_buy_price := ((lot.quantity * lot.average_buy_price) + (q * p)) / (lot.quantity + q) })
    ∧ (find_lot db sid sym uid = none →
      find_lot (execute_buy db hcache sid sym q p tc bal uid snap today).2.1 sid sym uid
        = some ⟨sid, uid, sym, q, p⟩)
    ∧ (∀ l' ∈ (execute_sell db hcache sid sym q p tc bal uid snap today).2.1.portfolio,
      ∃ l ∈ db.portfolio, l'.symbol = l.symbol
        ∧ l'.average_buy_price = l.average_buy_price
        ∧ l'.sandbox_id = l.sandbox_id ∧ l'.user_id = l.user_id) := by
  refine ⟨?_, ?_, ?_⟩
  · intro lot hlot
    unfold execute_buy
    rw [if_neg hb]
    dsimp only
    rw [find_lot_update_balance, hlot]
    dsimp only
    rw [find_lot_snapshot_after_trade, find_lot_record_transaction]
    exact find_lot_update_lot_self _ sid sym uid _ _ lot
      (by rw [find_lot_update_balance]; exact hlot)
  · intro hlot
    unfold execute_buy
    rw [if_neg hb]
    dsimp only
    rw [find_lot_update_balance, hlot]
    dsimp only
    rw [find_lot_snapshot_after_trade, find_lot_record_transaction]
    unfold find_lot at hlot ⊢
    dsimp only
    rw [portfolio_update_balance, find?_append_none _ _ _ hlot]
    simp
  · intro l' hl'
    unfold execute_sell at hl'
    by_cases hsell :
        (((find_lot db sid sym uid).map Lot.quantity).getD 0 < q)
    · rw [if_pos hsell] at hl'
      exact ⟨l', hl', rfl, rfl, rfl, rfl⟩
    · rw [if_neg hsell] at hl'
      dsimp only at hl'
      by_cases heps :
          (((find_lot db sid sym uid).map Lot.quantity).getD 0 - q ≤ 1/1000000)
      · rw [if_pos heps] at hl'
        exact ⟨l', List.mem_of_mem_filter hl', rfl, rfl, rfl, rfl⟩
      · rw [if_neg heps] at hl'
        obtain ⟨x, hx, hxl⟩ := List.mem_map.mp hl'
        refine ⟨x, hx, ?_⟩
        by_cases hkey : (x.sandbox_id == sid && x.symbol == sym && x.user_id == uid) = true
        · rw [if_pos hkey] at hxl
          rw [← hxl]
          exact ⟨rfl, rfl, rfl, rfl⟩
        · rw [if_neg hkey] at hxl
          rw [← hxl]
          exact ⟨rfl, rfl, rfl, rfl⟩

/-- C2 witness: buying 2 X at 110 onto a lot of 10 at 100 yields quantity
12 at average (10·100 + 2·110) / 12; buying into an empty book creates a
lot at the execution price; a SELL leaves every surviving average cost as
it was. -/
theorem trade_average_cost_spec_witness :
    find_lot (execute_buy db2w [] 1 "X" 2 110 220 1000 7 [] 3).2.1 1 "X" 7
      = some ⟨1, 7, "X", 12, (10 * 100 + 2 * 110) / 12⟩
    ∧ find_lot (execute_buy db3w [] 1 "Y" 2 50 100 100 7 [] 3).2.1 1 "Y" 7
      = some ⟨1, 7, "Y", 2, 50⟩ := by
  have h2 := trade_average_cost_spec db2w [] 1 "X" 2 110 220 1000 7 [] 3 (by norm_num)
  have h3 := trade_average_cost_spec db3w [] 1 "Y" 2 50 100 100 7 [] 3 (by norm_num)
  constructor
  · rw [h2.1 ⟨1, 7, "X", 10, 100⟩ rfl]
    norm_num
  · exact h3.2.1 rfl

/-- C3: each validation failure — non-positive (resolved) quantity, BUY
total cost above the cash balance, SELL quantity above the owned
quantity — returns its error and leaves the database, every lot, the
transaction log and the cache untouched. -/
theorem trade_validation_no_mutation (db : DB) (hcache : HCache)
    (sid uid owner : Nat) (perm : String) (symbol? : Option String) (tt : String)
    (q0 amt : Rat) (p : Rat) (snap : List (String × Rat)) (today : Nat)
    (hA : check_sandbox_access db sid uid "edit" = some (owner, perm))
    (hsym : symbol?.getD "" ≠ "")
    (htt : tt = "BUY" ∨ tt = "SELL")
    (hp : p ≠ 0) :
    (resolve_quantity q0 amt p ≤ 0 →
      trade_stock db hcache sid uid symbol? tt q0 amt (some p) snap today
        = (.error .invalidQuantity, db, hcache))
    ∧ (∀ sbx : SandboxRow,
        db.sandboxes.find? (fun s => s.id == sid && s.user_id == owner) = some sbx →
        0 < resolve_quantity q0 amt p → tt = "BUY" →
        sbx.balance < p * resolve_quantity q0 amt p →
        trade_stock db hcache sid uid symbol? tt q0 amt (some p) snap today
          = (.error (.insufficientFunds sbx.balance (p * resolve_quantity q0 amt p)),
             db, hcache))
    ∧ (∀ sbx : SandboxRow,
        db.sandboxes.find? (fun s => s.id == sid && s.user_id == owner) = some sbx →
        0 < resolve_quantity q0 amt p → tt = "SELL" →
        ((find_lot db sid (symbol?.getD "") owner).map Lot.quantity).getD 0
          < resolve_quantity q0 amt p →
        trade_stock db hcache sid uid symbol? tt q0 amt (some p) snap today
          = (.error (.insufficientShares
              (((find_lot db sid (symbol?.getD "") owner).map Lot.quantity).getD 0)
              (resolve_quantity q0 amt p)), db, hcache)) := by
  have hparam : (symbol?.getD "" == "" || !(tt == "BUY" || tt == "SELL")) = false := by
    rcases htt with h | h <;> simp [h, hsym]
  have hpz : (p == 0) = false := by simp [hp]
  refine ⟨?_, ?_, ?_⟩
  · intro hq
    simp only [trade_stock]
    rw [hA]
    dsimp only
    rw [if_neg (by rw [hparam]; decide), if_neg (by rw [hpz]; decide)]
    rw [if_pos hq]
  · intro sbx hsbx hq httB hb
    subst httB
    simp only [trade_stock]
    rw [hA]
    dsimp only
    rw [if_neg (by rw [hparam]; decide), if_neg (by rw [hpz]; decide)]
    rw [if_neg (not_le.mpr hq), hsbx]
    dsimp only
    rw [if_pos (by rfl)]
    unfold execute_buy
    rw [if_pos hb]
  · intro sbx hsbx hq httS hs
    subst httS
    simp only [trade_stock]
    rw [hA]
    dsimp only
    rw [if_neg (by rw [hparam]; decide), if_neg (by rw [hpz]; decide)]
    rw [if_neg (not_le.mpr hq), hsbx]
    dsimp only
    rw [if_neg (by simp)]
    unfold execute_sell
    rw [if_pos hs]

/-- C3 witness: a BUY costing 150 against 100 cash, a SELL of 1 share
with none owned, and a zero-quantity request each fail with the matching
error and return the fixture database unchanged. -/
theorem trade_validation_no_mutation_witness :
    trade_stock db3w [] 1 7 (some "X") "BUY" 3 0 (some 50) [] 9
      = (.error (.insufficientFunds 100 150), db3w, [])
    ∧ trade_stock db3w [] 1 7 (some "X") "SELL" 1 0 (some 50) [] 9
      = (.error (.insufficientShares 0 1), db3w, [])
    ∧ trade_stock db3w [] 1 7 (some "X") "BUY" 0 0 (some 50) [] 9
      = (.error .invalidQuantity, db3w, []) := by
  have hB := trade_validation_no_mutation db3w [] 1 7 7 "owner" (some "X") "BUY"
    3 0 50 [] 9 rfl (by decide) (Or.inl rfl) (by norm_num)
  have hS := trade_validation_no_mutation db3w [] 1 7 7 "owner" (some "X") "SELL"
    1 0 50 [] 9 rfl (by decide) (Or.inr rfl) (by norm_num)
  have hQ := trade_validation_no_mutation db3w [] 1 7 7 "owner" (some "X") "BUY"
    0 0 50 [] 9 rfl (by decide) (Or.inl rfl) (by norm_num)
  refine ⟨?_, ?_, ?_⟩
  · rw [hB.2.1 ⟨1, 7, "paper", 100, 100, 0⟩ rfl (by norm_num [resolve_quantity]) rfl
      (by norm_num [resolve_quantity])]
    norm_num [resolve_quantity]
  · rw [hS.2.2 ⟨1, 7, "paper", 100, 100, 0⟩ rfl (by norm_num [resolve_quantity]) rfl
      (by norm_num [resolve_quantity, find_lot, db3w])]
    norm_num [resolve_quantity, find_lot, db3w]
  · exact hQ.1 (by norm_num [resolve_quantity])

/-- C4: a trade resolves access with `edit` required, so it proceeds only
for the owner or an edit share; with only a watch share (or none) the
edit check fails, the trade returns the failure and leaves everything
unchanged; and watch (or any share, or ownership) suffices for the read
paths, which resolve access with `watch` required. -/
theorem sandbox_access_control (db : DB) (hcache : HCache) (sid uid : Nat) :
    (∀ o pm, check_sandbox_access db sid uid "edit" = some (o, pm) →
      (∃ s ∈ db.sandboxes, s.id = sid ∧ s.user_id = uid)
      ∨ (∃ sh ∈ db.shares, sh.sandbox_id = sid ∧ sh.shared_with_id = uid
          ∧ sh.permission = "edit"))
    ∧ (check_sandbox_access db sid uid "edit" = none →
      ∀ sym tt q a pr sp td,
        trade_stock db hcache sid uid sym tt q a pr sp td
          = (.error .notFound, db, hcache))
    ∧ (∀ s : SandboxRow, db.sandboxes.find? (fun x => x.id == sid) = some s →
        s.user_id ≠ uid →
        ∀ sh : Share, db.shares.find? (fun x =>
            x.sandbox_id == sid && x.shared_with_id == uid) = some sh →
        sh.permission = "watch" →
        check_sandbox_access db sid uid "edit" = none
        ∧ check_sandbox_access db sid uid "watch" = some (s.user_id, "watch"))
    ∧ (∀ s : SandboxRow, db.sandboxes.find? (fun x => x.id == sid) = some s →
        (s.user_id = uid ∨ (db.shares.find? (fun x =>
            x.sandbox_id == sid && x.shared_with_id == uid)).isSome) →
        ∃ r, get_transactions db sid uid = .ok r) := by
  refine ⟨?_, ?_, ?_, ?_⟩
  · intro o pm h
    unfold check_sandbox_access at h
    cases hf : db.sandboxes.find? (fun s => s.id == sid) with
    | none => rw [hf] at h; exact absurd h (by simp)
    | some s =>
      rw [hf] at h
      dsimp only at h
      by_cases hown : (s.user_id == uid) = true
      · left
        exact ⟨s, List.mem_of_find?_eq_some hf, by simpa using List.find?_some hf,
          by simpa using hown⟩
      · rw [if_neg hown] at h
        cases hsh : db.shares.find? (fun sh =>
            sh.sandbox_id == sid && sh.shared_with_id == uid) with
        | none => rw [hsh] at h; exact absurd h (by simp)
        | some sh =>
          rw [hsh] at h
          dsimp only at h
          by_cases hperm : (("edit" == "edit") && (sh.permission != "edit")) = true
          · rw [if_pos hperm] at h; exact absurd h (by simp)
          · right
            have hkey := List.find?_some hsh
            have hkey' : (sh.sandbox_id == sid && sh.shared_with_id == uid) = true := hkey
            have hkey2 : sh.sandbox_id = sid ∧ sh.shared_with_id = uid := by
              simpa using hkey'
            refine ⟨sh, List.mem_of_find?_eq_some hsh, hkey2.1, hkey2.2, ?_⟩
            · have : (sh.permission != "edit") = false := by
                cases hx : (sh.permission != "edit") with
                | true => exact absurd (by simp [hx]) hperm
                | false => rfl
              simpa using this
  · intro h sym tt q a pr sp td
    simp only [trade_stock]
    rw [h]
  · intro s hf hne sh hsh hwatch
    constructor
    · unfold check_sandbox_access
      rw [hf]
      dsimp only
      rw [if_neg (by simp [hne]), hsh]
      dsimp only
      rw [if_pos (by simp [hwatch])]
    · unfold check_sandbox_access
      rw [hf]
      dsimp only
      rw [if_neg (by simp [hne]), hsh]
      dsimp only
      rw [if_neg (by simp), hwatch]
  · intro s hf hor
    unfold get_transactions check_sandbox_access
    rw [hf]
    dsimp only
    rcases hor with hown | hshare
    · rw [if_pos (by simp [hown])]
      exact ⟨_, rfl⟩
    · by_cases hown : (s.user_id == uid) = true
      · rw [if_pos hown]
        exact ⟨_, rfl⟩
      · rw [if_neg hown]
        cases hsh : db.shares.find? (fun x =>
            x.sandbox_id == sid && x.shared_with_id == uid) with
        | none => rw [hsh] at hshare; exact absurd hshare (by simp)
        | some sh =>
          dsimp only
          rw [if_neg (by simp)]
          exact ⟨_, rfl⟩

/-- C4 witness: user 9 holds only a watch share on sandbox 1, so a trade
fails with the not-found error and mutates nothing, while the read path
succeeds with watch access. -/
theorem sandbox_access_control_witness :
    trade_stock db4w [] 1 9 (some "X") "BUY" 1 0 (some 50) [] 9
      = (.error .notFound, db4w, [])
    ∧ check_sandbox_access db4w 1 9 "watch" = some (7, "watch")
    ∧ check_sandbox_access db4w 1 7 "edit" = some (7, "owner") := by
  have h := sandbox_access_control db4w [] 1 9
  have hpair := h.2.2.1 ⟨1, 7, "paper", 100, 100, 0⟩ rfl (by decide) ⟨1, 9, "watch"⟩
    rfl rfl
  exact ⟨h.2.1 hpair.1 (some "X") "BUY" 1 0 (some 50) [] 9, hpair.2, rfl⟩

theorem length_insert_by_date (r : Snapshot) (l : List Snapshot) :
    (insert_by_date r l).length = l.length + 1 := by
  induction l with
  | nil => rfl
  | cons s rest ih =>
    unfold insert_by_date
    split
    · simp
    · simp [ih]

theorem length_sort_by_date (l : List Snapshot) :
    (sort_by_date l).length = l.length := by
  induction l with
  | nil => rfl
  | cons s rest ih => simp [sort_by_date, length_insert_by_date, ih]

/-- C10: after a failed seeding, the two-point fallback curve sits in the
900-second history cache, and every later call inside the window — with
any snapshot table and any seeding outcome, i.e. without retrying the
seed — returns the same fallback curve with no error indication. -/
theorem seed_failure_fallback_cached (hcache : HCache) (tbl : List Snapshot)
    (now : Rat) (sid uid : Nat) (init created : Rat) (writes : List SeedWrite)
    (msg : String)
    (hC : alookup hcache sid = none)
    (hR : (tbl.filter (fun s => s.sandbox_id == sid)).length < 2) :
    get_equity_history hcache tbl now sid uid init created writes (.error msg)
      = (([⟨created * 1000, init⟩, ⟨now * 1000, init⟩],
          some ("Failed to seed equity history: " ++ msg)),
         (sid, ([⟨created * 1000, init⟩, ⟨now * 1000, init⟩], now + 900)) :: hcache,
         writes.foldl (fun t w =>
           record_equity_snapshot t sid uid w.total w.cash w.holdings w.date) tbl)
    ∧ ∀ (now2 : Rat) (tbl2 : List Snapshot) (uid2 : Nat) (init2 created2 : Rat)
        (writes2 : List SeedWrite) (body2 : Except String (List Pt)),
        now2 < now + 900 →
        get_equity_history
            ((sid, ([⟨created * 1000, init⟩, ⟨now * 1000, init⟩], now + 900)) :: hcache)
            tbl2 now2 sid uid2 init2 created2 writes2 body2
          = (([⟨created * 1000, init⟩, ⟨now * 1000, init⟩], none),
             (sid, ([⟨created * 1000, init⟩, ⟨now * 1000, init⟩], now + 900)) :: hcache,
             tbl2) := by
  constructor
  · unfold get_equity_history
    rw [hC]
    unfold get_equity_history_miss
    rw [if_pos (by rw [length_sort_by_date]; exact hR)]
    unfold seed_equity_history
    dsimp only
    rw [if_neg (by simp)]
  · intro now2 tbl2 uid2 init2 created2 writes2 body2 h2
    unfold get_equity_history
    have : alookup ((sid, ([⟨created * 1000, init⟩, ⟨now * 1000, init⟩], now + 900))
        :: hcache) sid
        = some ([⟨created * 1000, init⟩, ⟨now * 1000, init⟩], now + 900) := by
      unfold alookup
      rw [if_pos (by simp)]
    rw [this]
    dsimp only
    rw [if_pos h2]

/-- C10 witness: a failed seed at t = 50 caches the fallback for sandbox
4; a second call at t = 60 with a different table and a would-succeed
seed body still returns the cached fallback with no error. -/
theorem seed_failure_fallback_cached_witness :
    get_equity_history [] [] 50 4 7 1000 10 [] (.error "boom")
      = (([⟨10000, 1000⟩, ⟨50000, 1000⟩],
          some "Failed to seed equity history: boom"),
         [(4, ([⟨10000, 1000⟩, ⟨50000, 1000⟩], 950))], [])
    ∧ get_equity_history [(4, ([⟨10000, 1000⟩, ⟨50000, 1000⟩], 950))]
        [⟨4, 7, 5, 5, 0, 1⟩] 60 4 7 0 0 [] (.ok [])
      = (([⟨10000, 1000⟩, ⟨50000, 1000⟩], none),
         [(4, ([⟨10000, 1000⟩, ⟨50000, 1000⟩], 950))], [⟨4, 7, 5, 5, 0, 1⟩]) := by
  have h := seed_failure_fallback_cached [] [] 50 4 7 1000 10 [] "boom" rfl
    (by norm_num)
  constructor
  · have h1 := h.1
    norm_num at h1 ⊢
    exact h1
  · have h2 := h.2 60 [⟨4, 7, 5, 5, 0, 1⟩] 7 0 0 [] (.ok []) (by norm_num)
    norm_num at h2 ⊢
    exact h2

theorem any_and_eq_false_of_filter_nil (tbl : List Snapshot) (sid d : Nat)
    (h : tbl.filter (fun s => s.sandbox_id == sid) = []) :
    tbl.any (fun s => s.sandbox_id == sid && s.snapshot_date == d) = false := by
  rw [List.any_eq_false]
  intro x hx
  have := List.filter_eq_nil.mp h x hx
  simp_all

theorem filter_record_snapshot_fresh (tbl : List Snapshot) (sid uid : Nat)
    (t c h : Rat) (d : Nat)
    (hH : tbl.filter (fun s => s.sandbox_id == sid) = []) :
    ((record_equity_snapshot tbl sid uid t c h d).filter
      (fun s => s.sandbox_id == sid)).length < 2 := by
  have hany := any_and_eq_false_of_filter_nil tbl sid d hH
  unfold record_equity_snapshot
  rw [if_neg (by simp [hany]), List.filter_append, hH]
  simp

/-- C5: when history seeding fails (the seed body raises `msg`) for a
sandbox with no prior snapshots, the portfolio view still succeeds and
carries exactly the two-point fallback curve — (creation timestamp,
initial balance) and (now, initial balance) — together with the
non-fatal history error. -/
theorem seeding_failure_portfolio_fallback (db : DB) (pcache : PCache)
    (hcache : HCache) (sid uid owner : Nat) (perm : String)
    (sbx : SandboxRow) (now : Rat) (today : Nat)
    (outcomes : String → FetchOut) (batchRaise : Bool)
    (writes : List SeedWrite) (msg : String)
    (hA : check_sandbox_access db sid uid "watch" = some (owner, perm))
    (hS : db.sandboxes.find? (fun s => s.id == sid && s.user_id == owner) = some sbx)
    (hH : db.equity_history.filter (fun s => s.sandbox_id == sid) = [])
    (hC : alookup hcache sid = none) :
    ∃ (resp : PortfolioResp) (db' : DB) (pcache' : PCache) (hcache' : HCache),
      get_portfolio db pcache hcache sid uid now today outcomes batchRaise
          writes (.error msg)
        = (.ok resp, db', pcache', hcache')
      ∧ resp.equity_history
          = [⟨sbx.created_at * 1000,
              if sbx.initial_balance == 0 then sbx.balance else sbx.initial_balance⟩,
             ⟨now * 1000,
              if sbx.initial_balance == 0 then sbx.balance else sbx.initial_balance⟩]
      ∧ resp.history_error = some ("Failed to seed equity history: " ++ msg) := by
  unfold get_portfolio
  rw [hA]
  dsimp only
  rw [hS]
  dsimp only
  refine ⟨_, _, _, _, rfl, ?_, ?_⟩ <;>
    rw [(seed_failure_fallback_cached hcache _ now sid owner _ _ writes msg hC
      (filter_record_snapshot_fresh db.equity_history sid owner _ _ _ today hH)).1]

/-- C5 witness: on the concrete fixture, a seed failure message "boom"
yields a successful portfolio response with the two-point curve at the
initial balance 1000 and the advisory history error. -/
theorem seeding_failure_portfolio_fallback_witness :
    ((get_portfolio db5w [] [] 3 7 100 20 (fun _ => FetchOut.price 0) false []
        (.error "boom")).1.toOption.map PortfolioResp.equity_history)
      = some [⟨10000, 1000⟩, ⟨100000, 1000⟩]
    ∧ ((get_portfolio db5w [] [] 3 7 100 20 (fun _ => FetchOut.price 0) false []
        (.error "boom")).1.toOption.map PortfolioResp.history_error)
      = some (some "Failed to seed equity history: boom") := by
  obtain ⟨resp, db', pc', hc', heq, hhist, herr⟩ :=
    seeding_failure_portfolio_fallback db5w [] [] 3 7 7 "owner"
      ⟨3, 7, "paper", 500, 1000, 10⟩ 100 20 (fun _ => FetchOut.price 0) false []
      "boom" rfl rfl rfl rfl
  rw [heq]
  refine ⟨?_, ?_⟩
  · dsimp only [Except.toOption, Option.map]
    rw [hhist]
    norm_num
  · dsimp only [Except.toOption, Option.map]
    rw [herr]
    rfl

theorem alookup_append {β : Type} (l1 l2 : List (String × β)) (k : String) :
    alookup (l1 ++ l2) k
      = match alookup l1 k with
        | some v => some v
        | none => alookup l2 k := by
  induction l1 with
  | nil => rfl
  | cons a t ih =>
    obtain ⟨ka, va⟩ := a
    by_cases hk : (ka == k) = true
    · simp [alookup, hk]
    · simp [alookup, hk, ih]

theorem split_fold_spec (pcache : PCache) (now : Rat) (symbols : List String)
    (r : List (String × Rat)) (m : List String) :
    symbols.foldl (fun (acc : List (String × Rat) × List String) sym =>
      match cache_hit pcache now sym with
      | some val => (acc.1 ++ [(sym, val)], acc.2)
      | none => (acc.1, acc.2 ++ [sym])) (r, m)
    = (r ++ symbols.filterMap (fun sym =>
         (cache_hit pcache now sym).map (fun v => (sym, v))),
       m ++ symbols.filter (fun sym => (cache_hit pcache now sym).isNone)) := by
  induction symbols generalizing r m with
  | nil => simp
  | cons a t ih =>
    cases hc : cache_hit pcache now a with
    | some v => simp [List.foldl_cons, hc, ih, List.filterMap_cons, List.filter_cons]
    | none => simp [List.foldl_cons, hc, ih, List.filterMap_cons, List.filter_cons]

theorem fetch_fold_result (now : Rat) (outcomes : String → FetchOut)
    (missing : List String) (r : List (String × Rat)) (c : PCache) :
    (missing.foldl (fetch_step now outcomes) (r, c)).1
    = r ++ missing.filterMap (fun sym =>
        match outcomes sym with
        | .raise => some (sym, (0 : Rat))
        | .price p => if p == 0 then none else some (sym, p)) := by
  induction missing generalizing r c with
  | nil => simp
  | cons a t ih =>
    cases ho : outcomes a with
    | raise => simp [List.foldl_cons, fetch_step, ho, ih]
    | price p =>
      by_cases hp : (p == 0) = true
      · have hp' : p = 0 := by simpa using hp
        subst hp'
        simp [List.foldl_cons, fetch_step, ho, ih, List.filterMap_cons]
      · have hp' : ¬ p = 0 := by simpa using hp
        simp [List.foldl_cons, fetch_step, ho, hp, hp', ih, List.filterMap_cons]

theorem alookup_hits_none (pcache : PCache) (now : Rat) (symbols : List String)
    (sym : String) (hmiss : cache_hit pcache now sym = none) :
    alookup (symbols.filterMap (fun s =>
      (cache_hit pcache now s).map (fun v => (s, v)))) sym = none := by
  induction symbols with
  | nil => rfl
  | cons a t ih =>
    cases hc : cache_hit pcache now a with
    | none => simpa [List.filterMap_cons, hc] using ih
    | some v =>
      rw [List.filterMap_cons, hc]
      dsimp only [Option.map]
      by_cases hk : (a == sym) = true
      · have ha : a = sym := by simpa using hk
        subst ha
        rw [hmiss] at hc
        exact absurd hc (by simp)
      · unfold alookup
        rw [if_neg hk]
        exact ih

theorem alookup_fetch_raise (outcomes : String → FetchOut) (missing : List String)
    (sym : String) (hmem : sym ∈ missing) (ho : outcomes sym = .raise) :
    alookup (missing.filterMap (fun s =>
      match outcomes s with
      | .raise => some (s, (0 : Rat))
      | .price p => if p == 0 then none else some (s, p))) sym = some 0 := by
  induction missing with
  | nil => cases hmem
  | cons a t ih =>
    by_cases hak : (a == sym) = true
    · have ha : a = sym := by simpa using hak
      subst ha
      rw [List.filterMap_cons, ho]
      dsimp only
      unfold alookup
      rw [if_pos (by simp)]
    · have ht : sym ∈ t := by
        rcases List.mem_cons.mp hmem with h1 | h1
        · exact absurd (by simp [h1]) hak
        · exact h1
      rw [List.filterMap_cons]
      cases hoa : outcomes a with
      | raise =>
        dsimp only
        unfold alookup
        rw [if_neg hak]
        exact ih ht
      | price p =>
        dsimp only
        by_cases hp : (p == 0) = true
        · rw [if_pos hp]
          dsimp only
          exact ih ht
        · rw [if_neg hp]
          unfold alookup
          rw [if_neg hak]
          exact ih ht

theorem alookup_fetch_falsy (outcomes : String → FetchOut) (missing : List String)
    (sym : String) (ho : outcomes sym = .price 0) :
    alookup (missing.filterMap (fun s =>
      match outcomes s with
      | .raise => some (s, (0 : Rat))
      | .price p => if p == 0 then none else some (s, p))) sym = none := by
  induction missing with
  | nil => rfl
  | cons a t ih =>
    rw [List.filterMap_cons]
    by_cases hak : (a == sym) = true
    · have ha : a = sym := by simpa using hak
      subst ha
      rw [ho]
      dsimp only
      rw [if_pos (by simp)]
      dsimp only
      exact ih
    · cases hoa : outcomes a with
      | raise =>
        dsimp only
        unfold alookup
        rw [if_neg hak]
        exact ih
      | price p =>
        dsimp only
        by_cases hp : (p == 0) = true
        · rw [if_pos hp]
          dsimp only
          exact ih
        · rw [if_neg hp]
          unfold alookup
          rw [if_neg hak]
          exact ih

theorem alookup_map_zero (missing : List String) (sym : String)
    (hmem : sym ∈ missing) :
    alookup (missing.map (fun s => (s, (0 : Rat)))) sym = some 0 := by
  induction missing with
  | nil => cases hmem
  | cons a t ih =>
    by_cases hak : (a == sym) = true
    · rw [List.map_cons]
      unfold alookup
      rw [if_pos hak]
    · have ht : sym ∈ t := by
        rcases List.mem_cons.mp hmem with h1 | h1
        · exact absurd (by simp [h1]) hak
        · exact h1
      rw [List.map_cons]
      unfold alookup
      rw [if_neg hak]
      exact ih ht

/-- C8 counterexample: sandbox 2 holds one AAPL lot at average cost 50;
its per-symbol fetch raises.  The claim says the valuation falls back to
the average cost (50); the code values the lot at the 0.0 it stored into
the price map, so the reported current price is 0, not 50. -/
theorem batch_price_exception_not_fallback :
    ((get_portfolio db8w [] [] 2 7 0 5 (fun _ => FetchOut.raise) false []
        (.ok [])).1.toOption.map
        (fun r => r.portfolio.map HoldingView.current_price))
      = some [0]
    ∧ some [(0 : Rat)] ≠ some [(50 : Rat)] := by
  exact ⟨rfl, by decide⟩

/-- C8 (amended): for a cache-miss symbol in a batch, a per-symbol fetch
exception yields price 0.0 in the result map (so the valuation's
average-cost fallback is bypassed and the symbol is valued at 0); the
caller-supplied fallback applies exactly when the fetch returns a falsy
price without raising, which leaves the symbol out of the map; and when
the whole batch fetch raises, every missing symbol is filled with 0.0 —
the batch never fails. -/
theorem batch_price_failure_semantics (pcache : PCache) (now : Rat)
    (symbols : List String) (outcomes : String → FetchOut) (sym : String)
    (hmiss : cache_hit pcache now sym = none)
    (hmem : sym ∈ symbols) :
    (outcomes sym = .raise →
      alookup (get_current_prices pcache now symbols outcomes false).1 sym = some 0
      ∧ ∀ fallback : Rat,
        (alookup (get_current_prices pcache now symbols outcomes false).1 sym).getD
          fallback = 0)
    ∧ (outcomes sym = .price 0 →
      alookup (get_current_prices pcache now symbols outcomes false).1 sym = none
      ∧ ∀ fallback : Rat,
        (alookup (get_current_prices pcache now symbols outcomes false).1 sym).getD
          fallback = fallback)
    ∧ (alookup (get_current_prices pcache now symbols outcomes true).1 sym = some 0
        ∨ (∃ v, cache_hit pcache now sym = some v)) := by
  have hmem' : sym ∈ symbols.filter (fun s => (cache_hit pcache now s).isNone) :=
    List.mem_filter.mpr ⟨hmem, by simp [hmiss]⟩
  have hne : (symbols.filter (fun s => (cache_hit pcache now s).isNone)).isEmpty = false := by
    cases hcase : (symbols.filter (fun s => (cache_hit pcache now s).isNone)) with
    | nil => rw [hcase] at hmem'; cases hmem'
    | cons a t => rfl
  have hsplit := split_fold_spec pcache now symbols [] []
  refine ⟨?_, ?_, ?_⟩
  · intro ho
    have hl : alookup (get_current_prices pcache now symbols outcomes false).1 sym
        = some 0 := by
      unfold get_current_prices
      rw [hsplit]
      dsimp only
      rw [List.nil_append, List.nil_append, if_neg (by simp [hne]),
        if_neg (by decide), fetch_fold_result, alookup_append,
        alookup_hits_none pcache now symbols sym hmiss,
        alookup_fetch_raise outcomes _ sym hmem' ho]
    exact ⟨hl, fun fallback => by rw [hl]; rfl⟩
  · intro ho
    have hl : alookup (get_current_prices pcache now symbols outcomes false).1 sym
        = none := by
      unfold get_current_prices
      rw [hsplit]
      dsimp only
      rw [List.nil_append, List.nil_append, if_neg (by simp [hne]),
        if_neg (by decide), fetch_fold_result, alookup_append,
        alookup_hits_none pcache now symbols sym hmiss,
        alookup_fetch_falsy outcomes _ sym ho]
    exact ⟨hl, fun fallback => by rw [hl]; rfl⟩
  · left
    unfold get_current_prices
    rw [hsplit]
    dsimp only
    rw [List.nil_append, List.nil_append, if_neg (by simp [hne]), if_pos rfl,
      alookup_append, alookup_hits_none pcache now symbols sym hmiss,
      alookup_map_zero _ sym hmem']

/-- C8 (amended) witness: with an empty cache, symbol A raising is priced
0 (bypassing a fallback of 77) while symbol B's falsy fetch leaves it
absent so the fallback 55 applies. -/
theorem batch_price_failure_semantics_witness :
    alookup (get_current_prices [] 0 ["A", "B"] outcomes8w false).1 "A" = some 0
    ∧ (alookup (get_current_prices [] 0 ["A", "B"] outcomes8w false).1 "A").getD 77 = 0
    ∧ alookup (get_current_prices [] 0 ["A", "B"] outcomes8w false).1 "B" = none
    ∧ (alookup (get_current_prices [] 0 ["A", "B"] outcomes8w false).1 "B").getD 55 = 55 := by
  have hA := (batch_price_failure_semantics [] 0 ["A", "B"] outcomes8w "A" rfl
    (by simp)).1 rfl
  have hB := (batch_price_failure_semantics [] 0 ["A", "B"] outcomes8w "B" rfl
    (by simp)).2.1 rfl
  exact ⟨hA.1, hA.2 77, hB.1, hB.2 55⟩

theorem find?_id_of_find?_and (l : List SandboxRow) (i u : Nat) (s : SandboxRow)
    (hU : l.Pairwise (fun a b => a.id ≠ b.id))
    (h : l.find? (fun x => x.id == i && x.user_id == u) = some s) :
    l.find? (fun x => x.id == i) = some s := by
  induction l with
  | nil => simp at h
  | cons a t ih =>
    rcases List.pairwise_cons.mp hU with ⟨ha, ht⟩
    rw [List.find?_cons] at h ⊢
    cases hid : (a.id == i) with
    | true =>
      dsimp only
      cases hu : (a.user_id == u) with
      | true =>
        have hc : (a.id == i && a.user_id == u) = true := by rw [hid, hu]; rfl
        rw [hc] at h
        dsimp only at h
        exact h
      | false =>
        have hc : (a.id == i && a.user_id == u) = false := by rw [hid, hu]; rfl
        rw [hc] at h
        dsimp only at h
        have hs_mem := List.mem_of_find?_eq_some h
        have hs_pred := List.find?_some h
        have hs_both : s.id = i ∧ s.user_id = u := by simpa using hs_pred
        have haid : a.id = i := by simpa using hid
        exact absurd (haid.trans hs_both.1.symm) (ha s hs_mem)
    | false =>
      dsimp only
      have hc : (a.id == i && a.user_id == u) = false := by rw [hid]; rfl
      rw [hc] at h
      dsimp only at h
      exact ih ht h

theorem balance_of_congr (db1 db2 : DB) (sid : Nat)
    (h : db1.sandboxes = db2.sandboxes) : balance_of db1 sid = balance_of db2 sid := by
  unfold balance_of
  rw [h]

theorem txns_for_congr (db1 db2 : DB) (sid : Nat)
    (h : db1.transactions = db2.transactions) : txns_for db1 sid = txns_for db2 sid := by
  unfold txns_for
  rw [h]

theorem uniq_congr (db1 db2 : DB) (h : db1.sandboxes = db2.sandboxes)
    (hU : UniqueSandboxIds db2) : UniqueSandboxIds db1 := by
  unfold UniqueSandboxIds
  rw [h]
  exact hU

theorem ub_id (a b : Nat) (c : Rat) (s : SandboxRow) :
    (if s.id == a && s.user_id == b then { s with balance := c } else s).id = s.id := by
  by_cases hc : (s.id == a && s.user_id == b) = true
  · rw [if_pos hc]
  · rw [if_neg hc]

theorem uniq_update_balance (db : DB) (a b : Nat) (c : Rat)
    (hU : UniqueSandboxIds db) : UniqueSandboxIds (update_balance db a b c) := by
  unfold UniqueSandboxIds update_balance at *
  dsimp only
  rw [List.pairwise_map]
  exact hU.imp (fun {x y} hxy => by rw [ub_id a b c x, ub_id a b c y]; exact hxy)

theorem balance_of_update_balance_other (db : DB) (a b : Nat) (c : Rat) (sid : Nat)
    (hne : sid ≠ a) :
    balance_of (update_balance db a b c) sid = balance_of db sid := by
  unfold balance_of update_balance
  dsimp only
  rw [find?_map_pres _ _ _ (fun x => by rw [ub_id a b c x])]
  cases hf : db.sandboxes.find? (fun s => s.id == sid) with
  | none => rfl
  | some s =>
    have hs : s.id = sid := by simpa using List.find?_some hf
    have hcond : (s.id == a && s.user_id == b) = false := by
      have : ¬ s.id = a := by rw [hs]; exact hne
      simp [this]
    dsimp only [Option.map]
    rw [if_neg (by simp [hcond])]

theorem balance_of_update_balance_self (db : DB) (a b : Nat) (c : Rat)
    (s : SandboxRow) (hU : UniqueSandboxIds db)
    (hf : db.sandboxes.find? (fun x => x.id == a && x.user_id == b) = some s) :
    balance_of (update_balance db a b c) a = c := by
  have hfid := find?_id_of_find?_and db.sandboxes a b s hU hf
  have hpred0 := List.find?_some hf
  have hpred : (s.id == a && s.user_id == b) = true := hpred0
  unfold balance_of update_balance
  dsimp only
  rw [find?_map_pres _ _ _ (fun x => by rw [ub_id a b c x]), hfid]
  dsimp only [Option.map]
  rw [if_pos hpred]
  rfl

theorem balance_of_found (db : DB) (a b : Nat) (s : SandboxRow)
    (hU : UniqueSandboxIds db)
    (hf : db.sandboxes.find? (fun x => x.id == a && x.user_id == b) = some s) :
    balance_of db a = s.balance := by
  unfold balance_of
  rw [find?_id_of_find?_and db.sandboxes a b s hU hf]
  rfl

theorem foldr_money_shift (l : List Txn) (x : Rat) :
    l.foldr (fun t acc => t.quantity * t.price + acc) x
      = l.foldr (fun t acc => t.quantity * t.price + acc) 0 + x := by
  induction l with
  | nil => simp
  | cons a t ih => simp only [List.foldr_cons, ih]; ring

theorem sum_sell_append (a b : List Txn) :
    sum_sell (a ++ b) = sum_sell a + sum_sell b := by
  unfold sum_sell
  rw [List.filter_append, List.foldr_append, foldr_money_shift]

theorem sum_buy_append (a b : List Txn) :
    sum_buy (a ++ b) = sum_buy a + sum_buy b := by
  unfold sum_buy
  rw [List.filter_append, List.foldr_append, foldr_money_shift]

theorem execute_buy_success_sandboxes (db : DB) (hcache : HCache) (sr : Nat)
    (sym : String) (q p tc bal : Rat) (owner : Nat) (snap : List (String × Rat))
    (today : Nat) (hfund : ¬ bal < tc) :
    (execute_buy db hcache sr sym q p tc bal owner snap today).2.1.sandboxes
      = (update_balance db sr owner (bal - tc)).sandboxes := by
  unfold execute_buy
  rw [if_neg hfund]
  dsimp only
  split <;> rfl

theorem execute_buy_success_transactions (db : DB) (hcache : HCache) (sr : Nat)
    (sym : String) (q p tc bal : Rat) (owner : Nat) (snap : List (String × Rat))
    (today : Nat) (hfund : ¬ bal < tc) :
    (execute_buy db hcache sr sym q p tc bal owner snap today).2.1.transactions
      = db.transactions ++ [⟨sr, owner, sym, "BUY", q, p⟩] := by
  unfold execute_buy
  rw [if_neg hfund]
  dsimp only
  split <;> rfl

theorem execute_sell_success_sandboxes (db : DB) (hcache : HCache) (sr : Nat)
    (sym : String) (q p tc bal : Rat) (owner : Nat) (snap : List (String × Rat))
    (today : Nat)
    (hsell : ¬ ((find_lot db sr sym owner).map Lot.quantity).getD 0 < q) :
    (execute_sell db hcache sr sym q p tc bal owner snap today).2.1.sandboxes
      = (update_balance db sr owner (bal + tc)).sandboxes := by
  unfold execute_sell
  rw [if_neg hsell]
  dsimp only
  split <;> rfl

theorem execute_sell_success_transactions (db : DB) (hcache : HCache) (sr : Nat)
    (sym : String) (q p tc bal : Rat) (owner : Nat) (snap : List (String × Rat))
    (today : Nat)
    (hsell : ¬ ((find_lot db sr sym owner).map Lot.quantity).getD 0 < q) :
    (execute_sell db hcache sr sym q p tc bal owner snap today).2.1.transactions
      = db.transactions ++ [⟨sr, owner, sym, "SELL", q, p⟩] := by
  unfold execute_sell
  rw [if_neg hsell]
  dsimp only
  split <;> rfl

theorem txns_for_append_one (db : DB) (sid : Nat) (l : List Txn) (t : Txn)
    (db' : DB) (h : db'.transactions = l ++ [t]) (hl : db.transactions = l) :
    txns_for db' sid = txns_for db sid ++ [t].filter (fun x => x.sandbox_id == sid) := by
  unfold txns_for
  rw [h, hl, List.filter_append]

theorem delta_spec_buy (sr : Nat) (sym : String) (q p : Rat) (owner sid : Nat) :
    ([(⟨sr, owner, sym, "BUY", q, p⟩ : Txn)].filter (fun x => x.sandbox_id == sid)
        = (if sr == sid then [⟨sr, owner, sym, "BUY", q, p⟩] else []))
    ∧ sum_sell [(⟨sr, owner, sym, "BUY", q, p⟩ : Txn)] = 0
    ∧ sum_buy [(⟨sr, owner, sym, "BUY", q, p⟩ : Txn)] = q * p
    ∧ sum_sell ([] : List Txn) = 0 ∧ sum_buy ([] : List Txn) = 0 := by
  refine ⟨?_, ?_, ?_, rfl, rfl⟩
  · by_cases h : (sr == sid) = true
    · rw [if_pos h]; simp [List.filter_cons, h]
    · rw [if_neg h]; simp [List.filter_cons, h]
  · simp [sum_sell]
  · simp [sum_buy]

theorem delta_spec_sell (sr : Nat) (sym : String) (q p : Rat) (owner sid : Nat) :
    ([(⟨sr, owner, sym, "SELL", q, p⟩ : Txn)].filter (fun x => x.sandbox_id == sid)
        = (if sr == sid then [⟨sr, owner, sym, "SELL", q, p⟩] else []))
    ∧ sum_sell [(⟨sr, owner, sym, "SELL", q, p⟩ : Txn)] = q * p
    ∧ sum_buy [(⟨sr, owner, sym, "SELL", q, p⟩ : Txn)] = 0 := by
  refine ⟨?_, ?_, ?_⟩
  · by_cases h : (sr == sid) = true
    · rw [if_pos h]; simp [List.filter_cons, h]
    · rw [if_neg h]; simp [List.filter_cons, h]
  · simp [sum_sell]
  · simp [sum_buy]

theorem execute_buy_step (db : DB) (hcache : HCache) (sr : Nat) (sym : String)
    (q p : Rat) (owner : Nat) (snap : List (String × Rat)) (today : Nat)
    (sid : Nat) (hU : UniqueSandboxIds db) (sbx : SandboxRow)
    (hf : db.sandboxes.find? (fun x => x.id == sr && x.user_id == owner) = some sbx) :
    UniqueSandboxIds
        (execute_buy db hcache sr sym q p (p * q) sbx.balance owner snap today).2.1
    ∧ ∃ delta : List Txn,
      txns_for (execute_buy db hcache sr sym q p (p * q) sbx.balance owner snap
          today).2.1 sid
        = txns_for db sid ++ delta
      ∧ balance_of (execute_buy db hcache sr sym q p (p * q) sbx.balance owner snap
          today).2.1 sid
        = balance_of db sid + sum_sell delta - sum_buy delta := by
  by_cases hfund : sbx.balance < p * q
  · unfold execute_buy
    rw [if_pos hfund]
    exact ⟨hU, [], by simp, by simp [sum_sell, sum_buy]⟩
  · have hsand := execute_buy_success_sandboxes db hcache sr sym q p (p * q)
      sbx.balance owner snap today hfund
    have htxn := execute_buy_success_transactions db hcache sr sym q p (p * q)
      sbx.balance owner snap today hfund
    have hUq : UniqueSandboxIds
        (execute_buy db hcache sr sym q p (p * q) sbx.balance owner snap today).2.1 :=
      uniq_congr _ _ hsand (uniq_update_balance db sr owner _ hU)
    refine ⟨hUq, [⟨sr, owner, sym, "BUY", q, p⟩].filter (fun x => x.sandbox_id == sid),
      txns_for_append_one db sid db.transactions _ _ htxn rfl, ?_⟩
    have hbal := balance_of_congr _ _ sid hsand
    obtain ⟨hfil, hs1, hb1, hs0, hb0⟩ := delta_spec_buy sr sym q p owner sid
    rw [hbal, hfil]
    by_cases hsr : (sr == sid) = true
    · have hsr' : sr = sid := by simpa using hsr
      subst hsr'
      rw [if_pos hsr, hs1, hb1,
        balance_of_update_balance_self db sr owner _ sbx hU hf,
        balance_of_found db sr owner sbx hU hf]
      ring
    · have hsr' : sid ≠ sr := fun hcon => by simp [hcon] at hsr
      rw [if_neg hsr, hs0, hb0,
        balance_of_update_balance_other db sr owner _ sid hsr']
      ring

theorem execute_sell_step (db : DB) (hcache : HCache) (sr : Nat) (sym : String)
    (q p : Rat) (owner : Nat) (snap : List (String × Rat)) (today : Nat)
    (sid : Nat) (hU : UniqueSandboxIds db) (sbx : SandboxRow)
    (hf : db.sandboxes.find? (fun x => x.id == sr && x.user_id == owner) = some sbx) :
    UniqueSandboxIds
        (execute_sell db hcache sr sym q p (p * q) sbx.balance owner snap today).2.1
    ∧ ∃ delta : List Txn,
      txns_for (execute_sell db hcache sr sym q p (p * q) sbx.balance owner snap
          today).2.1 sid
        = txns_for db sid ++ delta
      ∧ balance_of (execute_sell db hcache sr sym q p (p * q) sbx.balance owner snap
          today).2.1 sid
        = balance_of db sid + sum_sell delta - sum_buy delta := by
  by_cases hsell : ((find_lot db sr sym owner).map Lot.quantity).getD 0 < q
  · unfold execute_sell
    rw [if_pos hsell]
    exact ⟨hU, [], by simp, by simp [sum_sell, sum_buy]⟩
  · have hsand := execute_sell_success_sandboxes db hcache sr sym q p (p * q)
      sbx.balance owner snap today hsell
    have htxn := execute_sell_success_transactions db hcache sr sym q p (p * q)
      sbx.balance owner snap today hsell
    have hUq : UniqueSandboxIds
        (execute_sell db hcache sr sym q p (p * q) sbx.balance owner snap today).2.1 :=
      uniq_congr _ _ hsand (uniq_update_balance db sr owner _ hU)
    refine ⟨hUq, [⟨sr, owner, sym, "SELL", q, p⟩].filter (fun x => x.sandbox_id == sid),
      txns_for_append_one db sid db.transactions _ _ htxn rfl, ?_⟩
    have hbal := balance_of_congr _ _ sid hsand
    obtain ⟨hfil, hs1, hb1⟩ := delta_spec_sell sr sym q p owner sid
    rw [hbal, hfil]
    by_cases hsr : (sr == sid) = true
    · have hsr' : sr = sid := by simpa using hsr
      subst hsr'
      rw [if_pos hsr, hs1, hb1,
        balance_of_update_balance_self db sr owner _ sbx hU hf,
        balance_of_found db sr owner sbx hU hf]
      simp [sum_buy]
      ring
    · have hsr' : sid ≠ sr := fun hcon => by simp [hcon] at hsr
      rw [if_neg hsr,
        balance_of_update_balance_other db sr owner _ sid hsr']
      simp [sum_sell, sum_buy]

theorem unchanged_triple (db : DB) (sid : Nat) :
    txns_for db sid = txns_for db sid ++ ([] : List Txn)
    ∧ balance_of db sid = balance_of db sid + sum_sell [] - sum_buy [] := by
  refine ⟨by simp, ?_⟩
  simp [sum_sell, sum_buy]

theorem trade_step_spec (st : DB × HCache) (r : TradeReq) (sid : Nat)
    (hU : UniqueSandboxIds st.1) :
    UniqueSandboxIds (trade_step st r).1
    ∧ ∃ delta : List Txn,
        txns_for (trade_step st r).1 sid = txns_for st.1 sid ++ delta
        ∧ balance_of (trade_step st r).1 sid
          = balance_of st.1 sid + sum_sell delta - sum_buy delta := by
  unfold trade_step
  dsimp only
  simp only [trade_stock]
  cases hA : check_sandbox_access st.1 r.sandbox_id r.user_id "edit" with
  | none =>
    dsimp only
    exact ⟨hU, [], (unchanged_triple st.1 sid).1, (unchanged_triple st.1 sid).2⟩
  | some pr =>
    obtain ⟨owner, perm⟩ := pr
    dsimp only
    by_cases hparam : (r.symbol?.getD "" == ""
        || !(r.trade_type == "BUY" || r.trade_type == "SELL")) = true
    · rw [if_pos hparam]
      exact ⟨hU, [], (unchanged_triple st.1 sid).1, (unchanged_triple st.1 sid).2⟩
    · rw [if_neg hparam]
      cases hp : r.price? with
      | none =>
        dsimp only
        exact ⟨hU, [], (unchanged_triple st.1 sid).1, (unchanged_triple st.1 sid).2⟩
      | some p =>
        dsimp only
        by_cases hpz : (p == 0) = true
        · rw [if_pos hpz]
          exact ⟨hU, [], (unchanged_triple st.1 sid).1, (unchanged_triple st.1 sid).2⟩
        · rw [if_neg hpz]
          by_cases hq : resolve_quantity r.quantity r.amount p ≤ 0
          · rw [if_pos hq]
            exact ⟨hU, [], (unchanged_triple st.1 sid).1, (unchanged_triple st.1 sid).2⟩
          · rw [if_neg hq]
            cases hf : st.1.sandboxes.find? (fun s =>
                s.id == r.sandbox_id && s.user_id == owner) with
            | none =>
              dsimp only
              exact ⟨hU, [], (unchanged_triple st.1 sid).1,
                (unchanged_triple st.1 sid).2⟩
            | some sbx =>
              dsimp only
              by_cases htt : (r.trade_type == "BUY") = true
              · rw [if_pos htt]
                exact execute_buy_step st.1 st.2 r.sandbox_id (r.symbol?.getD "")
                  (resolve_quantity r.quantity r.amount p) p owner r.snap_prices
                  r.today sid hU sbx hf
              · rw [if_neg htt]
                exact execute_sell_step st.1 st.2 r.sandbox_id (r.symbol?.getD "")
                  (resolve_quantity r.quantity r.amount p) p owner r.snap_prices
                  r.today sid hU sbx hf

theorem run_trades_spec (reqs : List TradeReq) (st : DB × HCache) (sid : Nat)
    (hU : UniqueSandboxIds st.1) :
    UniqueSandboxIds (run_trades st reqs).1
    ∧ ∃ delta : List Txn,
        txns_for (run_trades st reqs).1 sid = txns_for st.1 sid ++ delta
        ∧ balance_of (run_trades st reqs).1 sid
          = balance_of st.1 sid + sum_sell delta - sum_buy delta := by
  induction reqs generalizing st with
  | nil =>
    exact ⟨hU, [], (unchanged_triple st.1 sid).1, (unchanged_triple st.1 sid).2⟩
  | cons r rs ih =>
    obtain ⟨hU1, d1, ht1, hb1⟩ := trade_step_spec st r sid hU
    obtain ⟨hU2, d2, ht2, hb2⟩ := ih (trade_step st r) hU1
    refine ⟨hU2, d1 ++ d2, ?_, ?_⟩
    · rw [show run_trades st (r :: rs) = run_trades (trade_step st r) rs from rfl,
        ht2, ht1, List.append_assoc]
    · rw [show run_trades st (r :: rs) = run_trades (trade_step st r) rs from rfl,
        hb2, hb1, sum_sell_append, sum_buy_append]
      ring

/-- C1: over any sequence of trade requests, the sandbox's final cash
balance equals its starting balance plus the SELL proceeds minus the BUY
costs of exactly the transactions the run appended to the log (the
executed trades), with exact rational arithmetic. -/
theorem cash_conservation (db : DB) (hcache : HCache) (reqs : List TradeReq)
    (sid : Nat) (hU : UniqueSandboxIds db) :
    balance_of (run_trades (db, hcache) reqs).1 sid
      = balance_of db sid
        + sum_sell (new_txns db (run_trades (db, hcache) reqs).1 sid)
        - sum_buy (new_txns db (run_trades (db, hcache) reqs).1 sid) := by
  obtain ⟨-, d, ht, hb⟩ := run_trades_spec reqs (db, hcache) sid hU
  have hd : new_txns db (run_trades (db, hcache) reqs).1 sid = d := by
    unfold new_txns
    rw [ht]
    exact List.drop_left _ _
  rw [hd, hb]

/-- C1 witness: the sandboxes table of the fixture has unique ids, so the
conservation identity holds of the concrete run (a BUY, a SELL and a
rejected oversized BUY). -/
theorem cash_conservation_witness :
    UniqueSandboxIds db1w
    ∧ balance_of (run_trades (db1w, []) reqs1w).1 1
      = balance_of db1w 1
        + sum_sell (new_txns db1w (run_trades (db1w, []) reqs1w).1 1)
        - sum_buy (new_txns db1w (run_trades (db1w, []) reqs1w).1 1) :=
  ⟨by decide, cash_conservation db1w [] reqs1w 1 (by decide)⟩

end Sandbox
